import Mathlib

/-!
Shallow embedding of the point-cloud comparison and height-filtering
pipeline of `ply.py` (functions `print_ply_info`, `compare_point_clouds`,
`visualize_point_cloud`, `main`), together with theorems settling the
specification claims about it.

Coordinates are modelled by the type `F`: an IEEE-754 double is either a
finite value (modelled as a rational), one of the two infinities, or NaN.
The pipeline performs no arithmetic on coordinates — only comparisons
(`>`, `min`, `max`) and classification (`isnan`, `isinf`) — so this
classification model captures exactly the float behaviour the code uses:
every comparison involving NaN is false, and `np.minimum` / `np.maximum`
propagate NaN.
-/

/-- Model of an IEEE-754 double as used by numpy: a finite value (as a
rational), positive or negative infinity, or NaN. -/
inductive F where
  | fin (q : ℚ)
  | inf
  | ninf
  | nan
deriving DecidableEq

/-- Model of `np.isnan` on one value. -/
def isnan : F → Bool
  | .nan => true
  | _ => false

/-- Model of `np.isinf` on one value (true for both infinities). -/
def isinf : F → Bool
  | .inf => true
  | .ninf => true
  | _ => false

/-- IEEE `<=` comparison: false whenever either operand is NaN, otherwise
the extended-real order. -/
def fle : F → F → Bool
  | .nan, _ => false
  | _, .nan => false
  | .ninf, _ => true
  | _, .inf => true
  | .fin a, .fin b => decide (a ≤ b)
  | .inf, _ => false
  | _, .ninf => false

/-- IEEE `<` comparison: false whenever either operand is NaN, otherwise
the strict extended-real order. -/
def flt : F → F → Bool
  | .nan, _ => false
  | _, .nan => false
  | .ninf, .ninf => false
  | .ninf, _ => true
  | .fin a, .fin b => decide (a < b)
  | .fin _, .inf => true
  | .inf, _ => false
  | .fin _, .ninf => false

/-- IEEE `>` comparison, as used by `points[:, 2] > z_threshold`. -/
def fgt (a b : F) : Bool := flt b a

/-- Model of `np.minimum` on two values: NaN-propagating minimum. -/
def fmin (a b : F) : F :=
  if isnan a || isnan b then .nan else if fle a b then a else b

/-- Model of `np.maximum` on two values: NaN-propagating maximum. -/
def fmax (a b : F) : F :=
  if isnan a || isnan b then .nan else if fle a b then b else a

/-- A 3D position or colour: the (x, y, z) (or (r, g, b)) components. -/
abbrev Vec3 := F × F × F

/-- Componentwise `np.minimum` on rows of an (n, 3) array. -/
def vmin (a b : Vec3) : Vec3 :=
  (fmin a.1 b.1, fmin a.2.1 b.2.1, fmin a.2.2 b.2.2)

/-- Componentwise `np.maximum` on rows of an (n, 3) array. -/
def vmax (a b : Vec3) : Vec3 :=
  (fmax a.1 b.1, fmax a.2.1 b.2.1, fmax a.2.2 b.2.2)

/-- Model of `np.min(points, axis=0)`: reduction of the rows by
componentwise minimum. On an empty array numpy raises
`ValueError: zero-size array to reduction operation`, modelled as `none`. -/
def npMin : List Vec3 → Option Vec3
  | [] => none
  | p :: l => some (l.foldl vmin p)

/-- Model of `np.max(points, axis=0)`; `none` models the `ValueError`
raised on an empty array. -/
def npMax : List Vec3 → Option Vec3
  | [] => none
  | p :: l => some (l.foldl vmax p)

/-- A loaded point cloud: an ordered sequence of positions with an
optional, index-aligned colour sequence (the invariant maintained by the
loading library: when colours are present there is one per point). -/
structure PointCloud where
  positions : List Vec3
  colors : Option (List Vec3)
  hcolors : ∀ cs, colors = some cs → cs.length = positions.length

/-- Model of numpy boolean-mask indexing `arr[mask]`: keep the entries of
the list at the indices where the mask is true, in order. -/
def boolIndex {α : Type _} : List α → List Bool → List α
  | [], _ => []
  | _ :: _, [] => []
  | a :: l, b :: m => if b then a :: boolIndex l m else boolIndex l m

/-- The boolean mask `points[:, 2] > z_threshold` of `visualize_point_cloud`. -/
def heightMask (ps : List Vec3) (t : F) : List Bool :=
  ps.map fun p => fgt p.2.2 t

theorem boolIndex_self {α : Type _} (p : α → Bool) :
    ∀ l : List α, boolIndex l (l.map p) = l.filter p
  | [] => rfl
  | a :: l => by
    simp only [List.map_cons, boolIndex, List.filter_cons]
    cases p a <;> simp [boolIndex_self p l]

theorem boolIndex_pair {α β : Type _} (p : α → Bool) :
    ∀ (ps : List α) (cs : List β), cs.length = ps.length →
      boolIndex cs (ps.map p) =
        ((ps.zip cs).filter fun x => p x.1).map Prod.snd
  | [], [], _ => rfl
  | [], _ :: _, h => by simp at h
  | _ :: _, [], h => by simp at h
  | a :: ps, c :: cs, h => by
    simp only [List.length_cons, Nat.succ.injEq] at h
    simp only [List.map_cons, boolIndex, List.zip_cons_cons, List.filter_cons]
    cases p a <;> simp [boolIndex_pair p ps cs h]

theorem zip_filter_map_fst {α β : Type _} (p : α → Bool) :
    ∀ (ps : List α) (cs : List β), cs.length = ps.length →
      ((ps.zip cs).filter fun x => p x.1).map Prod.fst = ps.filter p
  | [], [], _ => rfl
  | [], _ :: _, h => by simp at h
  | _ :: _, [], h => by simp at h
  | a :: ps, c :: cs, h => by
    simp only [List.length_cons, Nat.succ.injEq] at h
    simp only [List.zip_cons_cons, List.filter_cons]
    cases p a <;> simp [zip_filter_map_fst p ps cs h]

theorem boolIndex_pair_length {α β : Type _} (p : α → Bool)
    (ps : List α) (cs : List β) (h : cs.length = ps.length) :
    (boolIndex cs (ps.map p)).length = (boolIndex ps (ps.map p)).length := by
  rw [boolIndex_pair p ps cs h, boolIndex_self,
    ← zip_filter_map_fst p ps cs h, List.length_map, List.length_map]

/-- The filtering step of `visualize_point_cloud` (called `filter_by_height`
in the specification): keep the points whose z-coordinate is strictly
greater than the threshold, via the boolean mask
`points[points[:, 2] > z_threshold]`, and when the cloud has colours apply
the identical mask to the colour array. -/
def filter_by_height (c : PointCloud) (t : F) : PointCloud where
  positions := boolIndex c.positions (heightMask c.positions t)
  colors := c.colors.map fun cs => boolIndex cs (heightMask c.positions t)
  hcolors := by
    intro cs' h
    cases hc : c.colors with
    | none => rw [hc] at h; cases h
    | some cs =>
      rw [hc] at h
      simp only [Option.map_some', Option.some.injEq] at h
      rw [← h, heightMask]
      exact boolIndex_pair_length _ _ _ (c.hcolors cs hc)

/-- The concrete boundary-test cloud of the specification: three points
with z-coordinates -1, 0 and 1, and no colours. -/
def cloudZ : PointCloud where
  positions := [(F.fin 0, F.fin 0, F.fin (-1)),
    (F.fin 0, F.fin 0, F.fin 0),
    (F.fin 0, F.fin 0, F.fin 1)]
  colors := none
  hcolors := fun _ h => nomatch h

theorem boolIndex_zip_eq_filter {α β : Type _} (p : α → Bool)
    (ps : List α) (cs : List β) (h : cs.length = ps.length) :
    (boolIndex ps (ps.map p)).zip (boolIndex cs (ps.map p)) =
      (ps.zip cs).filter fun x => p x.1 := by
  rw [boolIndex_self, boolIndex_pair p ps cs h,
    ← zip_filter_map_fst p ps cs h, List.zip_map']
  simp

theorem boolIndex_mask_idem {α β : Type _} (p : α → Bool)
    (ps : List α) (cs : List β) (h : cs.length = ps.length) :
    boolIndex (boolIndex cs (ps.map p)) ((boolIndex ps (ps.map p)).map p) =
      boolIndex cs (ps.map p) := by
  rw [boolIndex_self, boolIndex_pair p ps cs h,
    ← zip_filter_map_fst p ps cs h]
  rw [boolIndex_pair p (((ps.zip cs).filter fun x => p x.1).map Prod.fst)
    (((ps.zip cs).filter fun x => p x.1).map Prod.snd) (by simp),
    List.zip_map']
  have heta : ((ps.zip cs).filter fun x => p x.1).map (fun a => (a.1, a.2)) =
      (ps.zip cs).filter fun x => p x.1 := by simp
  rw [heta]
  have hself : (((ps.zip cs).filter fun x => p x.1).filter fun x => p x.1) =
      (ps.zip cs).filter fun x => p x.1 := by
    rw [List.filter_eq_self]
    intro a ha
    simp only [List.mem_filter] at ha
    exact ha.2
  rw [hself]

theorem PointCloud.eq_of_fields {c1 c2 : PointCloud}
    (h1 : c1.positions = c2.positions) (h2 : c1.colors = c2.colors) :
    c1 = c2 := by
  cases c1
  cases c2
  simp only at h1 h2
  subst h1
  subst h2
  rfl

/-- C1: the height filter keeps exactly the points with z strictly greater
than the threshold, in original relative order (its output is the
corresponding subsequence of the input), and on the boundary cloud with
z = -1, 0, 1 and threshold 0 it keeps exactly the z = 1 point. -/
theorem c1_filter_positions (c : PointCloud) (t : F) :
    (filter_by_height c t).positions =
      c.positions.filter (fun p => fgt p.2.2 t) ∧
    List.Sublist (filter_by_height c t).positions c.positions ∧
    (filter_by_height cloudZ (F.fin 0)).positions =
      [(F.fin 0, F.fin 0, F.fin 1)] := by
  refine ⟨boolIndex_self _ _, ?_, ?_⟩
  · rw [show (filter_by_height c t).positions =
      boolIndex c.positions (heightMask c.positions t) from rfl,
      heightMask, boolIndex_self]
    exact List.filter_sublist _
  · decide

/-- The index-alignment test cloud of the specification: the three points
of the boundary cloud, each carrying a distinct colour. -/
def cloudC : PointCloud where
  positions := [(F.fin 0, F.fin 0, F.fin (-1)),
    (F.fin 0, F.fin 0, F.fin 0),
    (F.fin 0, F.fin 0, F.fin 1)]
  colors := some [(F.fin 1, F.fin 0, F.fin 0),
    (F.fin 0, F.fin 1, F.fin 0),
    (F.fin 0, F.fin 0, F.fin 1)]
  hcolors := by intro cs h; cases h; rfl

/-- C2: when the source cloud has colours, the filtered cloud's colours are
selected by the identical mask as the positions, so the output position and
colour counts match and each surviving colour is the one originally paired
with its surviving point; when the source has no colours, the output has
none. -/
theorem c2_color_alignment (c : PointCloud) (t : F) :
    (c.colors = none → (filter_by_height c t).colors = none) ∧
    ∀ cs, c.colors = some cs →
      ∃ cs', (filter_by_height c t).colors = some cs' ∧
        cs'.length = (filter_by_height c t).positions.length ∧
        (filter_by_height c t).positions.zip cs' =
          (c.positions.zip cs).filter fun x => fgt x.1.2.2 t := by
  constructor
  · intro h
    simp [filter_by_height, h]
  · intro cs hc
    refine ⟨boolIndex cs (heightMask c.positions t), ?_, ?_, ?_⟩
    · simp [filter_by_height, hc]
    · rw [show (filter_by_height c t).positions =
        boolIndex c.positions (heightMask c.positions t) from rfl, heightMask]
      exact boolIndex_pair_length _ _ _ (c.hcolors cs hc)
    · rw [show (filter_by_height c t).positions =
        boolIndex c.positions (heightMask c.positions t) from rfl, heightMask]
      exact boolIndex_zip_eq_filter _ _ _ (c.hcolors cs hc)

/-- Witness for C2 at the specification's index-alignment test: three
points with three matching colours filtered down to one point yield exactly
one colour, the one paired with the surviving point. -/
theorem c2_color_alignment_witness :
    ∃ cs', (filter_by_height cloudC (F.fin 0)).colors = some cs' ∧
      cs'.length = (filter_by_height cloudC (F.fin 0)).positions.length ∧
      (filter_by_height cloudC (F.fin 0)).positions.zip cs' =
        (cloudC.positions.zip [(F.fin 1, F.fin 0, F.fin 0),
          (F.fin 0, F.fin 1, F.fin 0),
          (F.fin 0, F.fin 0, F.fin 1)]).filter
          fun x => fgt x.1.2.2 (F.fin 0) :=
  (c2_color_alignment cloudC (F.fin 0)).2 _ rfl

theorem filter_by_height_positions (c : PointCloud) (t : F) :
    (filter_by_height c t).positions =
      c.positions.filter fun p => fgt p.2.2 t := by
  rw [show (filter_by_height c t).positions =
    boolIndex c.positions (heightMask c.positions t) from rfl,
    heightMask, boolIndex_self]

/-- C7: the height filter is idempotent for a fixed threshold. -/
theorem c7_idempotent (c : PointCloud) (t : F) :
    filter_by_height (filter_by_height c t) t = filter_by_height c t := by
  apply PointCloud.eq_of_fields
  · rw [filter_by_height_positions, filter_by_height_positions,
      List.filter_filter]
    simp
  · cases hc : c.colors with
    | none =>
      have h1 : (filter_by_height c t).colors = none := by
        simp [filter_by_height, hc]
      show ((filter_by_height c t).colors.map
        fun ds => boolIndex ds
          (heightMask (filter_by_height c t).positions t)) =
        (filter_by_height c t).colors
      rw [h1, Option.map_none']
    | some cs =>
      have h1 : (filter_by_height c t).colors =
          some (boolIndex cs (heightMask c.positions t)) := by
        simp [filter_by_height, hc]
      show ((filter_by_height c t).colors.map
        fun ds => boolIndex ds
          (heightMask (filter_by_height c t).positions t)) =
        (filter_by_height c t).colors
      rw [h1, Option.map_some', Option.some.injEq]
      rw [show (filter_by_height c t).positions =
        boolIndex c.positions (heightMask c.positions t) from rfl]
      show boolIndex
        (boolIndex cs (c.positions.map fun p => fgt p.2.2 t))
        ((boolIndex c.positions
          (c.positions.map fun p => fgt p.2.2 t)).map fun p => fgt p.2.2 t) =
        boolIndex cs (c.positions.map fun p => fgt p.2.2 t)
      exact boolIndex_mask_idem _ _ _ (c.hcolors cs hc)

/-- The empty point cloud. -/
def emptyCloud : PointCloud where
  positions := []
  colors := none
  hcolors := fun _ h => nomatch h

/-- C8: filtering the empty cloud yields the empty cloud for every
threshold, and a threshold that excludes every point yields an empty cloud
(both without error: the filter is a total function). -/
theorem c8_empty (t : F) (c : PointCloud)
    (h : ∀ p ∈ c.positions, fgt p.2.2 t = false) :
    (filter_by_height emptyCloud t).positions = [] ∧
    (filter_by_height c t).positions = [] := by
  refine ⟨rfl, ?_⟩
  rw [show (filter_by_height c t).positions =
    boolIndex c.positions (heightMask c.positions t) from rfl,
    heightMask, boolIndex_self, List.filter_eq_nil_iff]
  intro a ha
  simp [h a ha]

/-- Witness for C8: threshold 5 excludes every point of the boundary
cloud, and the output is empty for both the empty cloud and that cloud. -/
theorem c8_empty_witness :
    (filter_by_height emptyCloud (F.fin 5)).positions = [] ∧
    (filter_by_height cloudZ (F.fin 5)).positions = [] :=
  c8_empty (F.fin 5) cloudZ (by decide)

/-- A log record emitted through the logging collaborator. Interpolated
values (sizes, extents, flags) are carried structurally. -/
inductive Ev where
  | info (s : String)
  | error (s : String)
  | size (which n : ℕ)
  | range (which : ℕ) (mn mx : Vec3)
  | invalid (which : ℕ) (b : Bool)
deriving DecidableEq

/-- Model of `np.isnan(points).any()`: some coordinate of some point is
NaN. -/
def anyNan (ps : List Vec3) : Bool :=
  ps.any fun p => isnan p.1 || isnan p.2.1 || isnan p.2.2

/-- Model of `np.isinf(points).any()`: some coordinate of some point is
positive or negative infinity. -/
def anyInf (ps : List Vec3) : Bool :=
  ps.any fun p => isinf p.1 || isinf p.2.1 || isinf p.2.2

/-- The invalid-point check of `compare_point_clouds`:
`np.isnan(points).any() or np.isinf(points).any()`. -/
def hasInvalid (ps : List Vec3) : Bool :=
  anyNan ps || anyInf ps

/-- Core of `compare_point_clouds` (lines 50-68), operating on the two
loaded clouds: log both sizes, then compute and log the per-axis ranges,
then compute and log the invalid flags. `np.min` / `np.max` raise a
`ValueError` on an empty cloud, which aborts the function after the size
logs; the boolean result records whether the function ran to completion
(`false` models the uncaught exception). -/
def compare_core (c1 c2 : PointCloud) : List Ev × Bool :=
  match npMin c1.positions, npMax c1.positions,
    npMin c2.positions, npMax c2.positions with
  | some mn1, some mx1, some mn2, some mx2 =>
    ([Ev.size 1 c1.positions.length, Ev.size 2 c2.positions.length,
      Ev.range 1 mn1 mx1, Ev.range 2 mn2 mx2,
      Ev.invalid 1 (hasInvalid c1.positions),
      Ev.invalid 2 (hasInvalid c2.positions)], true)
  | _, _, _, _ =>
    ([Ev.size 1 c1.positions.length, Ev.size 2 c2.positions.length], false)

/-- A one-point, all-finite cloud. -/
def cFin : PointCloud where
  positions := [(F.fin 1, F.fin 2, F.fin 3)]
  colors := none
  hcolors := fun _ h => nomatch h

/-- A two-point cloud with a single infinite coordinate among
otherwise-finite values. -/
def cInf : PointCloud where
  positions := [(F.fin 1, F.fin 2, F.fin 3), (F.fin 4, F.inf, F.fin 6)]
  colors := none
  hcolors := fun _ h => nomatch h

/-- A one-point cloud whose x-coordinate is NaN. -/
def nanCloud : PointCloud where
  positions := [(F.nan, F.fin 0, F.fin 0)]
  colors := none
  hcolors := fun _ h => nomatch h

/-- C5: the comparison reports size1 = number of points of the first cloud
and size2 = number of points of the second, for every pair of clouds (the
size logs are the first two records emitted). -/
theorem c5_sizes (c1 c2 : PointCloud) :
    (compare_core c1 c2).1.take 2 =
      [Ev.size 1 c1.positions.length, Ev.size 2 c2.positions.length] := by
  rw [compare_core]
  cases npMin c1.positions <;> cases npMax c1.positions <;>
    cases npMin c2.positions <;> cases npMax c2.positions <;> rfl

/-- Counterexample to C3: on an empty first cloud the comparison logs the
two sizes (0 among them) but then aborts with the `ValueError` from
`np.min` on an empty array — it neither completes nor reports any extent
sentinel. -/
theorem c3_empty_cex :
    (compare_core emptyCloud cFin).2 = false ∧
    (compare_core emptyCloud cFin).1 =
      [Ev.size 1 0, Ev.size 2 1] := by
  constructor <;> rfl

/-- C3 as amended: with an empty cloud on either side, the comparison
reports the sizes (0 is reported, not an error) and then aborts with an
uncaught `ValueError` from `np.min` / `np.max` on the empty position
sequence, reporting no extent at all. -/
theorem c3_empty_amended (c1 c2 : PointCloud)
    (h : c1.positions = [] ∨ c2.positions = []) :
    compare_core c1 c2 =
      ([Ev.size 1 c1.positions.length, Ev.size 2 c2.positions.length],
        false) := by
  rw [compare_core]
  rcases h with h | h <;> rw [h] <;>
    cases npMin c1.positions <;> cases npMax c1.positions <;>
    cases npMin c2.positions <;> cases npMax c2.positions <;> rfl

/-- Witness for the amended C3 at the concrete pair (empty cloud, one-point
cloud). -/
theorem c3_empty_amended_witness :
    compare_core emptyCloud cFin = ([Ev.size 1 0, Ev.size 2 1], false) :=
  c3_empty_amended emptyCloud cFin (Or.inl rfl)

theorem npMin_of_ne_nil (ps : List Vec3) (h : ps ≠ []) :
    ∃ v, npMin ps = some v := by
  cases ps with
  | nil => exact absurd rfl h
  | cons p l => exact ⟨_, rfl⟩

theorem npMax_of_ne_nil (ps : List Vec3) (h : ps ≠ []) :
    ∃ v, npMax ps = some v := by
  cases ps with
  | nil => exact absurd rfl h
  | cons p l => exact ⟨_, rfl⟩

/-- C4: whenever the comparison reaches the invalid check (both clouds
non-empty), it reports for each cloud the flag
`np.isnan(points).any() or np.isinf(points).any()`, and that flag is true
iff at least one coordinate of at least one point of that cloud is NaN or
positive/negative infinity. -/
theorem c4_invalid_flag (c1 c2 : PointCloud)
    (h1 : c1.positions ≠ []) (h2 : c2.positions ≠ []) :
    Ev.invalid 1 (hasInvalid c1.positions) ∈ (compare_core c1 c2).1 ∧
    Ev.invalid 2 (hasInvalid c2.positions) ∈ (compare_core c1 c2).1 ∧
    ∀ ps : List Vec3, hasInvalid ps = true ↔
      ∃ p ∈ ps, isnan p.1 = true ∨ isnan p.2.1 = true ∨ isnan p.2.2 = true ∨
        isinf p.1 = true ∨ isinf p.2.1 = true ∨ isinf p.2.2 = true := by
  obtain ⟨mn1, e1⟩ := npMin_of_ne_nil _ h1
  obtain ⟨mx1, e2⟩ := npMax_of_ne_nil _ h1
  obtain ⟨mn2, e3⟩ := npMin_of_ne_nil _ h2
  obtain ⟨mx2, e4⟩ := npMax_of_ne_nil _ h2
  refine ⟨?_, ?_, ?_⟩
  · rw [compare_core, e1, e2, e3, e4]
    simp
  · rw [compare_core, e1, e2, e3, e4]
    simp
  · intro ps
    simp only [hasInvalid, anyNan, anyInf, Bool.or_eq_true, List.any_eq_true]
    constructor
    · rintro (⟨p, hp, hn⟩ | ⟨p, hp, hn⟩) <;> exact ⟨p, hp, by tauto⟩
    · rintro ⟨p, hp, hn⟩
      rcases hn with h | h | h | h | h | h
      · exact Or.inl ⟨p, hp, by tauto⟩
      · exact Or.inl ⟨p, hp, by tauto⟩
      · exact Or.inl ⟨p, hp, by tauto⟩
      · exact Or.inr ⟨p, hp, by tauto⟩
      · exact Or.inr ⟨p, hp, by tauto⟩
      · exact Or.inr ⟨p, hp, by tauto⟩

/-- Witness for C4: a cloud with one infinite coordinate among
otherwise-finite points is flagged invalid, and an all-finite cloud is
not. -/
theorem c4_invalid_flag_witness :
    Ev.invalid 1 true ∈ (compare_core cInf cFin).1 ∧
    Ev.invalid 2 false ∈ (compare_core cInf cFin).1 := by
  have h := c4_invalid_flag cInf cFin (by decide) (by decide)
  exact ⟨h.1, h.2.1⟩

theorem fle_trans {a b c : F} (h1 : fle a b = true) (h2 : fle b c = true) :
    fle a c = true := by
  cases a <;> cases b <;> cases c <;> simp_all [fle] <;> exact le_trans h1 h2

theorem fle_refl {a : F} (h : isnan a = false) : fle a a = true := by
  cases a <;> simp_all [fle, isnan]

theorem fmin_not_nan {a b : F} (ha : isnan a = false) (hb : isnan b = false) :
    isnan (fmin a b) = false := by
  cases a <;> cases b <;> simp_all [fmin, isnan] <;> split_ifs <;>
    simp [isnan]

theorem fmax_not_nan {a b : F} (ha : isnan a = false) (hb : isnan b = false) :
    isnan (fmax a b) = false := by
  cases a <;> cases b <;> simp_all [fmax, isnan] <;> split_ifs <;>
    simp [isnan]

theorem fmin_le_left {a b : F} (ha : isnan a = false) (hb : isnan b = false) :
    fle (fmin a b) a = true := by
  cases a <;> cases b <;> simp_all [fle, fmin, isnan] <;>
    split_ifs with h <;> simp_all [fle] <;> exact le_of_lt h

theorem fmin_le_right {a b : F} (ha : isnan a = false) (hb : isnan b = false) :
    fle (fmin a b) b = true := by
  cases a <;> cases b <;> simp_all [fle, fmin, isnan] <;>
    split_ifs with h <;> simp_all [fle]

theorem le_fmax_left {a b : F} (ha : isnan a = false) (hb : isnan b = false) :
    fle a (fmax a b) = true := by
  cases a <;> cases b <;> simp_all [fle, fmax, isnan] <;>
    split_ifs with h <;> simp_all [fle]

theorem le_fmax_right {a b : F} (ha : isnan a = false) (hb : isnan b = false) :
    fle b (fmax a b) = true := by
  cases a <;> cases b <;> simp_all [fle, fmax, isnan] <;>
    split_ifs with h <;> simp_all [fle] <;> exact le_of_lt h

theorem foldl_fmin_le (l : List F) (acc : F) (hacc : isnan acc = false)
    (hl : ∀ x ∈ l, isnan x = false) :
    isnan (l.foldl fmin acc) = false ∧
    fle (l.foldl fmin acc) acc = true ∧
    ∀ x ∈ l, fle (l.foldl fmin acc) x = true := by
  induction l generalizing acc with
  | nil => exact ⟨hacc, fle_refl hacc, by simp⟩
  | cons a l ih =>
    have ha : isnan a = false := hl a (List.mem_cons_self a l)
    have hl' : ∀ x ∈ l, isnan x = false :=
      fun x hx => hl x (List.mem_cons_of_mem _ hx)
    have hacc' : isnan (fmin acc a) = false := fmin_not_nan hacc ha
    obtain ⟨hn, hle, hall⟩ := ih (fmin acc a) hacc' hl'
    refine ⟨hn, fle_trans hle (fmin_le_left hacc ha), ?_⟩
    intro x hx
    rcases List.mem_cons.mp hx with rfl | hx
    · exact fle_trans hle (fmin_le_right hacc ha)
    · exact hall x hx

theorem foldl_fmax_ge (l : List F) (acc : F) (hacc : isnan acc = false)
    (hl : ∀ x ∈ l, isnan x = false) :
    isnan (l.foldl fmax acc) = false ∧
    fle acc (l.foldl fmax acc) = true ∧
    ∀ x ∈ l, fle x (l.foldl fmax acc) = true := by
  induction l generalizing acc with
  | nil => exact ⟨hacc, fle_refl hacc, by simp⟩
  | cons a l ih =>
    have ha : isnan a = false := hl a (List.mem_cons_self a l)
    have hl' : ∀ x ∈ l, isnan x = false :=
      fun x hx => hl x (List.mem_cons_of_mem _ hx)
    have hacc' : isnan (fmax acc a) = false := fmax_not_nan hacc ha
    obtain ⟨hn, hle, hall⟩ := ih (fmax acc a) hacc' hl'
    refine ⟨hn, fle_trans (le_fmax_left hacc ha) hle, ?_⟩
    intro x hx
    rcases List.mem_cons.mp hx with rfl | hx
    · exact fle_trans (le_fmax_right hacc ha) hle
    · exact hall x hx

theorem foldl_vmin_proj (l : List Vec3) (acc : Vec3) :
    (l.foldl vmin acc).1 = (l.map fun p => p.1).foldl fmin acc.1 ∧
    (l.foldl vmin acc).2.1 = (l.map fun p => p.2.1).foldl fmin acc.2.1 ∧
    (l.foldl vmin acc).2.2 = (l.map fun p => p.2.2).foldl fmin acc.2.2 := by
  induction l generalizing acc with
  | nil => exact ⟨rfl, rfl, rfl⟩
  | cons a l ih => exact ih (vmin acc a)

theorem foldl_vmax_proj (l : List Vec3) (acc : Vec3) :
    (l.foldl vmax acc).1 = (l.map fun p => p.1).foldl fmax acc.1 ∧
    (l.foldl vmax acc).2.1 = (l.map fun p => p.2.1).foldl fmax acc.2.1 ∧
    (l.foldl vmax acc).2.2 = (l.map fun p => p.2.2).foldl fmax acc.2.2 := by
  induction l generalizing acc with
  | nil => exact ⟨rfl, rfl, rfl⟩
  | cons a l ih => exact ih (vmax acc a)

/-- A point whose three coordinates are all non-NaN. -/
def noNanPoint (p : Vec3) : Prop :=
  isnan p.1 = false ∧ isnan p.2.1 = false ∧ isnan p.2.2 = false

instance : DecidablePred noNanPoint := fun p =>
  inferInstanceAs (Decidable
    (isnan p.1 = false ∧ isnan p.2.1 = false ∧ isnan p.2.2 = false))

theorem npMin_bounds (ps : List Vec3) (h : ps ≠ [])
    (hn : ∀ p ∈ ps, noNanPoint p) :
    ∃ mn, npMin ps = some mn ∧ ∀ p ∈ ps,
      fle mn.1 p.1 = true ∧ fle mn.2.1 p.2.1 = true ∧
      fle mn.2.2 p.2.2 = true := by
  cases ps with
  | nil => exact absurd rfl h
  | cons q l =>
    refine ⟨l.foldl vmin q, rfl, ?_⟩
    obtain ⟨e1, e2, e3⟩ := foldl_vmin_proj l q
    have hq := hn q (List.mem_cons_self q l)
    have hx := foldl_fmin_le (l.map fun p => p.1) q.1 hq.1
      (by rintro x hx; obtain ⟨p, hp, rfl⟩ := List.mem_map.mp hx
          exact (hn p (List.mem_cons_of_mem _ hp)).1)
    have hy := foldl_fmin_le (l.map fun p => p.2.1) q.2.1 hq.2.1
      (by rintro x hx; obtain ⟨p, hp, rfl⟩ := List.mem_map.mp hx
          exact (hn p (List.mem_cons_of_mem _ hp)).2.1)
    have hz := foldl_fmin_le (l.map fun p => p.2.2) q.2.2 hq.2.2
      (by rintro x hx; obtain ⟨p, hp, rfl⟩ := List.mem_map.mp hx
          exact (hn p (List.mem_cons_of_mem _ hp)).2.2)
    intro p hp
    rcases List.mem_cons.mp hp with rfl | hp
    · exact ⟨e1 ▸ hx.2.1, e2 ▸ hy.2.1, e3 ▸ hz.2.1⟩
    · exact ⟨e1 ▸ hx.2.2 p.1 (List.mem_map_of_mem _ hp),
        e2 ▸ hy.2.2 p.2.1 (List.mem_map_of_mem _ hp),
        e3 ▸ hz.2.2 p.2.2 (List.mem_map_of_mem _ hp)⟩

theorem npMax_bounds (ps : List Vec3) (h : ps ≠ [])
    (hn : ∀ p ∈ ps, noNanPoint p) :
    ∃ mx, npMax ps = some mx ∧ ∀ p ∈ ps,
      fle p.1 mx.1 = true ∧ fle p.2.1 mx.2.1 = true ∧
      fle p.2.2 mx.2.2 = true := by
  cases ps with
  | nil => exact absurd rfl h
  | cons q l =>
    refine ⟨l.foldl vmax q, rfl, ?_⟩
    obtain ⟨e1, e2, e3⟩ := foldl_vmax_proj l q
    have hq := hn q (List.mem_cons_self q l)
    have hx := foldl_fmax_ge (l.map fun p => p.1) q.1 hq.1
      (by rintro x hx; obtain ⟨p, hp, rfl⟩ := List.mem_map.mp hx
          exact (hn p (List.mem_cons_of_mem _ hp)).1)
    have hy := foldl_fmax_ge (l.map fun p => p.2.1) q.2.1 hq.2.1
      (by rintro x hx; obtain ⟨p, hp, rfl⟩ := List.mem_map.mp hx
          exact (hn p (List.mem_cons_of_mem _ hp)).2.1)
    have hz := foldl_fmax_ge (l.map fun p => p.2.2) q.2.2 hq.2.2
      (by rintro x hx; obtain ⟨p, hp, rfl⟩ := List.mem_map.mp hx
          exact (hn p (List.mem_cons_of_mem _ hp)).2.2)
    intro p hp
    rcases List.mem_cons.mp hp with rfl | hp
    · exact ⟨e1 ▸ hx.2.1, e2 ▸ hy.2.1, e3 ▸ hz.2.1⟩
    · exact ⟨e1 ▸ hx.2.2 p.1 (List.mem_map_of_mem _ hp),
        e2 ▸ hy.2.2 p.2.1 (List.mem_map_of_mem _ hp),
        e3 ▸ hz.2.2 p.2.2 (List.mem_map_of_mem _ hp)⟩

/-- Statement of claim C6: every extent record the comparison reports for
the first cloud bounds every point of that cloud componentwise. -/
def extentBoundsReported (c1 c2 : PointCloud) : Prop :=
  ∀ mn mx, Ev.range 1 mn mx ∈ (compare_core c1 c2).1 →
    ∀ p ∈ c1.positions,
      (fle mn.1 p.1 = true ∧ fle mn.2.1 p.2.1 = true ∧
        fle mn.2.2 p.2.2 = true) ∧
      (fle p.1 mx.1 = true ∧ fle p.2.1 mx.2.1 = true ∧
        fle p.2.2 mx.2.2 = true)

/-- Counterexample to C6: on the non-empty cloud whose single point has a
NaN x-coordinate, the reported per-axis minimum is NaN and `NaN <= x` is
false, so the reported extent does not bound the cloud's own point. -/
theorem c6_extent_cex : ¬ extentBoundsReported nanCloud nanCloud := by
  intro h
  have hm : Ev.range 1 (F.nan, F.fin 0, F.fin 0) (F.nan, F.fin 0, F.fin 0) ∈
      (compare_core nanCloud nanCloud).1 := by decide
  have hp : (F.nan, F.fin 0, F.fin 0) ∈ nanCloud.positions := by decide
  have := (h _ _ hm _ hp).1.1
  exact Bool.noConfusion this

/-- C6 as amended: for every pair of non-empty clouds whose first cloud has
no NaN coordinate, the extent reported for the first cloud bounds every one
of its points componentwise (infinite coordinates are still bounded, since
IEEE comparisons order the infinities; only NaN breaks the claim). -/
theorem c6_extent_amended (c1 c2 : PointCloud)
    (h1 : c1.positions ≠ []) (h2 : c2.positions ≠ [])
    (hn : ∀ p ∈ c1.positions, noNanPoint p) :
    ∃ mn mx, Ev.range 1 mn mx ∈ (compare_core c1 c2).1 ∧
      ∀ p ∈ c1.positions,
        (fle mn.1 p.1 = true ∧ fle mn.2.1 p.2.1 = true ∧
          fle mn.2.2 p.2.2 = true) ∧
        (fle p.1 mx.1 = true ∧ fle p.2.1 mx.2.1 = true ∧
          fle p.2.2 mx.2.2 = true) := by
  obtain ⟨mn, emn, hmn⟩ := npMin_bounds c1.positions h1 hn
  obtain ⟨mx, emx, hmx⟩ := npMax_bounds c1.positions h1 hn
  obtain ⟨mn2, e3⟩ := npMin_of_ne_nil _ h2
  obtain ⟨mx2, e4⟩ := npMax_of_ne_nil _ h2
  refine ⟨mn, mx, ?_, fun p hp => ⟨hmn p hp, hmx p hp⟩⟩
  rw [compare_core, emn, emx, e3, e4]
  simp

/-- Witness for the amended C6 at a concrete two-point cloud containing an
infinite coordinate (still bounded) and the all-finite one-point cloud. -/
theorem c6_extent_amended_witness :
    ∃ mn mx, Ev.range 1 mn mx ∈ (compare_core cInf cFin).1 ∧
      ∀ p ∈ cInf.positions,
        (fle mn.1 p.1 = true ∧ fle mn.2.1 p.2.1 = true ∧
          fle mn.2.2 p.2.2 = true) ∧
        (fle p.1 mx.1 = true ∧ fle p.2.1 mx.2.1 = true ∧
          fle p.2.2 mx.2.2 = true) :=
  c6_extent_amended cInf cFin (by decide) (by decide) (by decide)

/-- Model of `print_ply_info`: the whole body is wrapped in
`try/except`, so a loader failure is logged as an error and the function
always returns. The info records printed for a successfully loaded file are
summarized by their headings. -/
def print_ply_info (load : String → Except String PointCloud)
    (file : String) : List Ev :=
  match load file with
  | .error e => [Ev.info s!"Reading file: {file}",
      Ev.error s!"Error reading {file}: {e}"]
  | .ok _ => [Ev.info s!"Reading file: {file}",
      Ev.info "PLY file header information:",
      Ev.info "Columns in the point cloud:",
      Ev.info "All point cloud data:",
      Ev.info "Vertex coordinates (x, y, z):",
      Ev.info "Point cloud statistics:"]

/-- Model of `compare_point_clouds` including its two unguarded loader
calls: there is no `try/except` in this function, so a loader failure
propagates (the boolean `false` models the uncaught exception, with no
log emitted by this function). -/
def compare_point_clouds (load : String → Except String PointCloud)
    (file1 file2 : String) : List Ev × Bool :=
  match load file1 with
  | .error _ => ([], false)
  | .ok c1 =>
    match load file2 with
    | .error _ => ([], false)
    | .ok c2 => compare_core c1 c2

/-- Model of `visualize_point_cloud`: the whole body is wrapped in
`try/except`, so both loader failures and display failures are logged as
errors and the function always returns. -/
def visualize_point_cloud (load : String → Except String PointCloud)
    (display : PointCloud → Except String Unit)
    (file : String) (z_threshold : F) : List Ev :=
  match load file with
  | .error e => [Ev.error s!"Error visualizing {file}: {e}"]
  | .ok c =>
    let fc := filter_by_height c z_threshold
    let logs := [Ev.info s!"Visualizing point cloud: {file}",
      Ev.info "Original points / Filtered points:"]
    match display fc with
    | .error e => logs ++ [Ev.error s!"Error visualizing {file}: {e}"]
    | .ok _ => logs

/-- Model of `main`: check that both paths exist (a single generic error
message and return when not), then inspect both files, compare them, and
visualize both with the default threshold 0. The boolean records whether
the run completed without an uncaught exception; an exception escaping
`compare_point_clouds` aborts the run before the visualization steps. -/
def main_fn (load : String → Except String PointCloud)
    (display : PointCloud → Except String Unit)
    (pathExists : String → Bool) (file1 file2 : String) : List Ev × Bool :=
  if !pathExists file1 || !pathExists file2 then
    ([Ev.error "One or both files do not exist."], true)
  else
    let a := Ev.info "Printing PLY file information..." ::
      (print_ply_info load file1 ++ print_ply_info load file2 ++
        [Ev.info "Comparing point clouds..."])
    match compare_point_clouds load file1 file2 with
    | (lc, true) =>
      (a ++ lc ++ (Ev.info "Visualizing point clouds (only z > 5)..." ::
        (visualize_point_cloud load display file1 (F.fin 0) ++
          visualize_point_cloud load display file2 (F.fin 0))), true)
    | (lc, false) => (a ++ lc, false)

/-- A loader that fails on every path. -/
def load0 : String → Except String PointCloud := fun _ => Except.error "boom"

/-- A loader that succeeds on every path with the empty cloud. -/
def loadOk : String → Except String PointCloud :=
  fun _ => Except.ok emptyCloud

/-- A display collaborator that always succeeds. -/
def displayOk : PointCloud → Except String Unit := fun _ => Except.ok ()

/-- A display collaborator that always fails. -/
def displayBad : PointCloud → Except String Unit :=
  fun _ => Except.error "boom"

/-- A world in which no path exists. -/
def peNone : String → Bool := fun _ => false

/-- A world in which every path exists. -/
def peAll : String → Bool := fun _ => true

/-- A world in which only `b.ply` exists. -/
def peOnlyB : String → Bool := fun f => f == "b.ply"

/-- A world in which only `a.ply` exists. -/
def peOnlyA : String → Bool := fun f => f == "a.ply"

/-- Counterexample to C9: the runs in which only the first path is missing
and in which only the second path is missing produce identical output — the
single generic message, which names no path — so `main` does not report
which path(s) are missing. -/
theorem c9_missing_cex :
    main_fn loadOk displayOk peOnlyB "a.ply" "b.ply" =
      main_fn loadOk displayOk peOnlyA "a.ply" "b.ply" ∧
    (main_fn loadOk displayOk peOnlyB "a.ply" "b.ply").1 =
      [Ev.error "One or both files do not exist."] := by
  constructor <;> rfl

/-- C9 as amended: when either path is missing, `main` returns immediately
after logging the single generic message "One or both files do not exist."
(which does not identify the missing path), and in particular never invokes
the loader or the display collaborator: its output is independent of
them. -/
theorem c9_missing_amended (load load' : String → Except String PointCloud)
    (display display' : PointCloud → Except String Unit)
    (pe : String → Bool) (f1 f2 : String)
    (h : pe f1 = false ∨ pe f2 = false) :
    main_fn load display pe f1 f2 =
      ([Ev.error "One or both files do not exist."], true) ∧
    main_fn load display pe f1 f2 = main_fn load' display' pe f1 f2 := by
  have hc : (!pe f1 || !pe f2) = true := by
    rcases h with h | h <;> simp [h]
  constructor <;> simp [main_fn, hc]

/-- Witness for the amended C9 in the world with no existing path: the run
aborts with the generic message, independently of the collaborators. -/
theorem c9_missing_amended_witness :
    main_fn load0 displayBad peNone "a.ply" "b.ply" =
      ([Ev.error "One or both files do not exist."], true) ∧
    main_fn load0 displayBad peNone "a.ply" "b.ply" =
      main_fn loadOk displayOk peNone "a.ply" "b.ply" :=
  c9_missing_amended load0 loadOk displayBad displayOk peNone
    "a.ply" "b.ply" (Or.inl rfl)

/-- Counterexample to C10: with both paths present and a loader that fails,
the run ends in an uncaught exception (the unguarded loader calls of the
comparison step) and never reaches the visualization step — the failure is
not confined to logged errors and the run does not continue. -/
theorem c10_catch_cex :
    (main_fn load0 displayOk peAll "a.ply" "b.ply").2 = false ∧
    Ev.info "Visualizing point clouds (only z > 5)..." ∉
      (main_fn load0 displayOk peAll "a.ply" "b.ply").1 := by
  constructor
  · rfl
  · decide

/-- C10 as amended: loader failures in the inspection step and loader or
display failures in the visualization step are caught at their call sites
and logged as errors (those functions always return, with the error as a
log record), but the loader calls of the comparison step are unguarded: a
loader failure there escapes as an uncaught exception. -/
theorem c10_catch_amended (loadF loadO : String → Except String PointCloud)
    (display : PointCloud → Except String Unit)
    (file f2 : String) (t : F) (e : String) (c : PointCloud)
    (hF : loadF file = Except.error e) (hO : loadO file = Except.ok c)
    (hd : display (filter_by_height c t) = Except.error e) :
    print_ply_info loadF file = [Ev.info s!"Reading file: {file}",
      Ev.error s!"Error reading {file}: {e}"] ∧
    visualize_point_cloud loadF display file t =
      [Ev.error s!"Error visualizing {file}: {e}"] ∧
    (visualize_point_cloud loadO display file t).getLast? =
      some (Ev.error s!"Error visualizing {file}: {e}") ∧
    compare_point_clouds loadF file f2 = ([], false) := by
  refine ⟨?_, ?_, ?_, ?_⟩
  · simp [print_ply_info, hF]
  · simp [visualize_point_cloud, hF]
  · simp [visualize_point_cloud, hO, hd, List.getLast?_concat]
  · simp [compare_point_clouds, hF]

/-- Witness for the amended C10 with the always-failing loader, the
always-succeeding loader and the always-failing display at concrete
paths. -/
theorem c10_catch_amended_witness :
    print_ply_info load0 "a.ply" = [Ev.info "Reading file: a.ply",
      Ev.error "Error reading a.ply: boom"] ∧
    visualize_point_cloud load0 displayBad "a.ply" (F.fin 0) =
      [Ev.error "Error visualizing a.ply: boom"] ∧
    (visualize_point_cloud loadOk displayBad "a.ply" (F.fin 0)).getLast? =
      some (Ev.error "Error visualizing a.ply: boom") ∧
    compare_point_clouds load0 "a.ply" "b.ply" = ([], false) :=
  c10_catch_amended load0 loadOk displayBad "a.ply" "b.ply" (F.fin 0)
    "boom" emptyCloud rfl rfl rfl
